import Mathlib

/-!
Shallow embedding of `src/useKeyboardNavigation.ts` (react-navigate-with-keyboard).

Modelling conventions:
- A DOM `Element` is `Elem`: an identity (`id : Nat`, standing for reference
  identity — two handles denote the same DOM node iff their ids are equal)
  together with its `className` string.
- A container is modelled by its `querySelectorAll` capability: a function from
  a selector string to the ordered list of matching descendant elements.
- The side effects of one event-handling cycle (`element.focus()`,
  `element.click()`, `event.preventDefault()`, `setContainerIndex(...)`) are
  recorded in a pure `Effects` record. `setContainerIndex` is called in the
  source with the updater `(prev) => forwardDirection ? prev + 1 : prev - 1`;
  we record the direction flag in `indexUpdate` and interpret it against the
  prior index with `applyIndex`.
- JavaScript numbers used as indices are modelled by `Int` (JS `findIndex`
  returns `-1`; indexed access `xs[i]` yields `undefined` for out-of-range or
  negative `i`, modelled by `listGet?`).
- `handleEvents` returns `Option Effects`: `none` models the TypeError thrown
  by `containers[containerIndex].querySelectorAll(...)` when the container
  index is out of bounds (source line 232); every other path is total.
-/

/-- A focusable DOM element: reference identity plus its `className` string. -/
structure Elem where
  id : Nat
  className : String
deriving DecidableEq

/-- A container, modelled by its `querySelectorAll` capability: the ordered
list of descendant elements matching a selector string. -/
structure Container where
  query : String → List Elem

/-- The side effects of one event-handling cycle. `focused`/`clicked` list the
elements on which `.focus()`/`.click()` were called, in order; `prevented`
records whether `event.preventDefault()` ran; `indexUpdate = some fwd` records
a `setContainerIndex((prev) => fwd ? prev + 1 : prev - 1)` call. -/
structure Effects where
  focused : List Elem := []
  clicked : List Elem := []
  prevented : Bool := false
  indexUpdate : Option Bool := none
deriving DecidableEq

/-- Interpret a recorded `setContainerIndex` updater against the prior index,
exactly as React applies `(prev) => forwardDirection ? prev + 1 : prev - 1`. -/
def applyIndex (idx : Int) (eff : Effects) : Int :=
  match eff.indexUpdate with
  | none => idx
  | some b => if b then idx + 1 else idx - 1

/-- JS indexed access `xs[i]`: `undefined` (`none`) for negative or
out-of-range indices. -/
def listGet? {α : Type} (l : List α) (i : Int) : Option α :=
  if i < 0 then none else l[i.toNat]?

/-- Helper for JS `Array.prototype.findIndex`: index of the first element
satisfying `p`, if any. -/
def findIdxAux {α : Type} (p : α → Bool) : List α → Option Nat
  | [] => none
  | a :: l => if p a then some 0 else (findIdxAux p l).map (· + 1)

/-- JS `Array.prototype.findIndex`: first matching index, or `-1`. -/
def jsFindIndex {α : Type} (p : α → Bool) (l : List α) : Int :=
  match findIdxAux p l with
  | none => -1
  | some n => (n : Int)

/-- Char-list prefix test (building block for the substring test below). -/
def charListHasPre : List Char → List Char → Bool
  | [], _ => true
  | _ :: _, [] => false
  | p :: ps, c :: cs => p == c && charListHasPre ps cs

/-- Char-list substring test: does the second list contain the first as a
contiguous run? -/
def charListHasSub (pat : List Char) : List Char → Bool
  | [] => charListHasPre pat []
  | c :: cs => charListHasPre pat (c :: cs) || charListHasSub pat cs

/-- JS `String.prototype.includes`: substring containment. -/
def strIncludes (s pat : String) : Bool :=
  charListHasSub pat.toList s.toList

/-- `type AutoSelect = boolean | { [index: number]: boolean }`. -/
inductive AutoSelect where
  | bool (b : Bool)
  | map (entries : List (Int × Bool))
deriving DecidableEq

/-- `selectors?: AllowedSelectors | AllowedSelectors[]` — a scalar selector
token or a sequence of tokens. -/
inductive SelectorsSpec where
  | single (s : String)
  | many (l : List String)
deriving DecidableEq

/-- JS truthiness of a `selectors` value: the empty string is falsy, every
array (even empty) is truthy. -/
def selectorsTruthy : SelectorsSpec → Bool
  | .single s => !(s == "")
  | .many _ => true

/-- The `Options` bag of `useKeyboardNavigation`; absent fields are `none`. -/
structure Options where
  selectors : Option SelectorsSpec := none
  autoSelect : Option AutoSelect := none
  tabKeyContainerLevel : Option Bool := none
  selectedClassName : Option String := none

/-- `const SELECTED_CLASSNAME = 'selected'` (source line 30). -/
def SELECTED_CLASSNAME : String := "selected"

/-- `export const allSelectors` (source lines 32-40). -/
def allSelectors : List String :=
  ["a", "button", "[href]", "input", "select", "textarea",
   "[tabindex]:not([tabindex=\"-1\"])"]

/-- `parseSelectors` (source lines 42-50): an array is joined into a single
comma-separated string; a scalar passes through. -/
def parseSelectors : SelectorsSpec → String
  | .single s => s
  | .many l => String.intercalate "," l

/-- `getFocusableElements` (source lines 52-55): `querySelectorAll` on the
container. -/
def getFocusableElements (container : Container) (selectors : String) : List Elem :=
  container.query selectors

/-- `checkForPreviouslyFocusedElement` (source lines 57-70): first element
whose `className.includes(selectedClassName ?? SELECTED_CLASSNAME)`, else
`elements[0]`, else `undefined`. -/
def checkForPreviouslyFocusedElement (elements : List Elem)
    (selectedClassName : Option String) : Option Elem :=
  match elements.find?
      (fun e => strIncludes e.className (selectedClassName.getD SELECTED_CLASSNAME)) with
  | some e => some e
  | none => elements.head?

/-- `focusElement` (source lines 72-98). The `event` parameter is represented
by the recorded effects; `if (!element) return;` is the `none` case. -/
def focusElement (element : Option Elem) (containerIndex : Int)
    (autoSelect : Option AutoSelect) : Effects :=
  match element with
  | none => {}
  | some el =>
    let select : Bool :=
      match autoSelect with
      | none => false
      | some (AutoSelect.bool b) => b
      | some (AutoSelect.map m) => (m.lookup containerIndex).getD false
    { focused := [el]
      clicked := if select then [el] else []
      prevented := true
      indexUpdate := none }

/-- `moveToContainer` (source lines 108-140): no-op on an absent container;
query with `selectors`, falling back to `parseSelectors(allSelectors)` when
empty; if still empty, no-op; otherwise select via
`checkForPreviouslyFocusedElement`, then `preventDefault`, index update and
focus. -/
def moveToContainer (container : Option Container) (forwardDirection : Bool)
    (selectors : String) (selectedClassName : Option String) : Effects :=
  match container with
  | none => {}
  | some c =>
    let containerElements := getFocusableElements c selectors
    let containerElements :=
      if containerElements.length == 0 then
        getFocusableElements c (parseSelectors (SelectorsSpec.many allSelectors))
      else containerElements
    if containerElements.length == 0 then {}
    else
      match checkForPreviouslyFocusedElement containerElements selectedClassName with
      | none => {}
      | some elementToSelect =>
        { focused := [elementToSelect]
          clicked := []
          prevented := true
          indexUpdate := some forwardDirection }

/-- `handleSwitchContainer` (source lines 142-177): Shift+Tab/ArrowLeft moves
to `containers[index-1]` when `index > 0`; Tab/ArrowRight moves to
`containers[index+1]` when `index < length - 1`. -/
def handleSwitchContainer (key : String) (shiftKey : Bool)
    (containers : List Container) (containerIndex : Int)
    (selectors : String) (selectedClassName : Option String) : Effects :=
  if (key == "Tab" && shiftKey) || key == "ArrowLeft" then
    moveToContainer
      (if containerIndex > 0 then listGet? containers (containerIndex - 1) else none)
      false selectors selectedClassName
  else if key == "Tab" || key == "ArrowRight" then
    moveToContainer
      (if containerIndex < (containers.length : Int) - 1 then
        listGet? containers (containerIndex + 1)
       else none)
      true selectors selectedClassName
  else {}

/-- `handleUpDown` (source lines 179-199): `findIndex` of the active element
(`-1` when absent), then `elements[currentIndex + 1]` for ArrowDown or
`elements[currentIndex - 1]` for ArrowUp, delegated to `focusElement`. -/
def handleUpDown (key : String) (activeElement : Option Elem)
    (elements : List Elem) (containerIndex : Int)
    (autoSelect : Option AutoSelect) : Effects :=
  let currentIndex : Int := jsFindIndex (fun e => activeElement == some e) elements
  let nextElement : Option Elem :=
    if key == "ArrowDown" then listGet? elements (currentIndex + 1)
    else if key == "ArrowUp" then listGet? elements (currentIndex - 1)
    else none
  focusElement nextElement containerIndex autoSelect

/-- `handleEvents` (source lines 201-252). Returns `none` for the TypeError
raised by `containers[containerIndex].querySelectorAll(...)` when the index is
out of bounds; `some eff` records the effects of a normal run. -/
def handleEvents (key : String) (shiftKey : Bool) (activeElement : Option Elem)
    (containers : List Container) (containerIndex : Int)
    (options : Options) : Option Effects :=
  if containers.length == 0 then some {}
  else if !(["ArrowUp", "ArrowDown", "Tab", "ArrowLeft", "ArrowRight"].contains key) then
    some {}
  else
    let parsedSelectors := parseSelectors
      (match options.selectors with
       | some s => if selectorsTruthy s then s else SelectorsSpec.many allSelectors
       | none => SelectorsSpec.many allSelectors)
    match listGet? containers containerIndex with
    | none => none
    | some container =>
      let elements := getFocusableElements container parsedSelectors
      if containers.length > 1 &&
          ((key == "Tab" && options.tabKeyContainerLevel.getD false) ||
           key == "ArrowLeft" || key == "ArrowRight") then
        some (handleSwitchContainer key shiftKey containers containerIndex
          parsedSelectors options.selectedClassName)
      else
        some (handleUpDown key activeElement elements containerIndex options.autoSelect)

/-- Split a char list into space-separated tokens (accumulator-style). -/
def classTokensAux : List Char → List Char → List (List Char)
  | [], cur => [cur.reverse]
  | c :: cs, cur =>
    if c == ' ' then cur.reverse :: classTokensAux cs []
    else classTokensAux cs (c :: cur)

/-- Modelled from the spec (§4.3, §6 `hasMarker`): exact class-token
membership — the element's marker SET (its space-separated class tokens)
includes the marker name. Used only to compare the spec's marker semantics
with the source's substring test. -/
def specHasMarker (e : Elem) (marker : String) : Bool :=
  (classTokensAux e.className.toList []).contains marker.toList

/-! ### Helper lemmas -/

theorem listGet?_neg {α : Type} (l : List α) (i : Int) (h : i < 0) :
    listGet? l i = none := by
  simp [listGet?, h]

theorem listGet?_zero {α : Type} (l : List α) : listGet? l 0 = l.head? := by
  cases l <;> simp [listGet?]

theorem listGet?_length {α : Type} (l : List α) :
    listGet? l (l.length : Int) = none := by
  simp [listGet?]

theorem findIdxAux_eq_none {α : Type} (p : α → Bool) (l : List α)
    (h : ∀ a ∈ l, p a = false) : findIdxAux p l = none := by
  induction l with
  | nil => rfl
  | cons a t ih =>
    simp [findIdxAux, h a (List.mem_cons_self a t),
      ih (fun x hx => h x (List.mem_cons_of_mem _ hx))]

theorem findIdxAux_append_last {α : Type} (p : α → Bool) (front : List α)
    (en : α) (hp : p en = true) (hfr : ∀ a ∈ front, p a = false) :
    findIdxAux p (front ++ [en]) = some front.length := by
  induction front with
  | nil => simp [findIdxAux, hp]
  | cons a fr ih =>
    simp [findIdxAux, hfr a (List.mem_cons_self a fr),
      ih (fun x hx => hfr x (List.mem_cons_of_mem _ hx))]

theorem focusElement_split (e : Option Elem) (i : Int) (a : Option AutoSelect) :
    focusElement e i a = {} ∨
      ∃ el, ∃ b : Bool, focusElement e i a =
        { focused := [el], clicked := if b then [el] else [],
          prevented := true, indexUpdate := none } := by
  cases e with
  | none => exact Or.inl rfl
  | some el => exact Or.inr ⟨el, _, rfl⟩

theorem moveToContainer_split (c : Option Container) (fwd : Bool) (sel : String)
    (scn : Option String) :
    moveToContainer c fwd sel scn = {} ∨
      ∃ el, moveToContainer c fwd sel scn =
        { focused := [el], clicked := [], prevented := true,
          indexUpdate := some fwd } := by
  cases c with
  | none => exact Or.inl rfl
  | some cc =>
    simp only [moveToContainer]
    split <;> (try split) <;> (try split) <;>
      first
      | exact Or.inl rfl
      | exact Or.inr ⟨_, rfl⟩

theorem handleUpDown_other_key (key : String) (act : Option Elem)
    (els : List Elem) (i : Int) (a : Option AutoSelect)
    (h1 : key ≠ "ArrowDown") (h2 : key ≠ "ArrowUp") :
    handleUpDown key act els i a = {} := by
  simp [handleUpDown, h1, h2, focusElement]

theorem handleSwitchContainer_split (key : String) (sh : Bool)
    (cs : List Container) (i : Int) (sel : String) (scn : Option String) :
    handleSwitchContainer key sh cs i sel scn = {} ∨
      ((key = "ArrowLeft" ∨ key = "Tab") ∧ 0 < i ∧
        ∃ el, handleSwitchContainer key sh cs i sel scn =
          { focused := [el], clicked := [], prevented := true,
            indexUpdate := some false }) ∨
      ((key = "ArrowRight" ∨ key = "Tab") ∧ i < (cs.length : Int) - 1 ∧
        ∃ el, handleSwitchContainer key sh cs i sel scn =
          { focused := [el], clicked := [], prevented := true,
            indexUpdate := some true }) := by
  simp only [handleSwitchContainer]
  split
  next hcond =>
    have hk : key = "ArrowLeft" ∨ key = "Tab" := by
      simp only [Bool.or_eq_true, Bool.and_eq_true, beq_iff_eq] at hcond
      tauto
    by_cases hi : i > 0
    · simp only [if_pos hi]
      rcases moveToContainer_split (listGet? cs (i - 1)) false sel scn with h | ⟨el, h⟩
      · exact Or.inl h
      · exact Or.inr (Or.inl ⟨hk, hi, el, h⟩)
    · simp only [if_neg hi]
      exact Or.inl rfl
  next =>
    split
    next hcond2 =>
      have hk : key = "ArrowRight" ∨ key = "Tab" := by
        simp only [Bool.or_eq_true, beq_iff_eq] at hcond2
        tauto
      by_cases hi : i < (cs.length : Int) - 1
      · simp only [if_pos hi]
        rcases moveToContainer_split (listGet? cs (i + 1)) true sel scn with h | ⟨el, h⟩
        · exact Or.inl h
        · exact Or.inr (Or.inr ⟨hk, hi, el, h⟩)
      · simp only [if_neg hi]
        exact Or.inl rfl
    next => exact Or.inl rfl

theorem handleEvents_split (key : String) (sh : Bool) (act : Option Elem)
    (cs : List Container) (i : Int) (opts : Options) (eff : Effects)
    (h : handleEvents key sh act cs i opts = some eff) :
    eff = {} ∨
      ((key = "ArrowDown" ∨ key = "ArrowUp") ∧
        ∃ el, ∃ b : Bool, eff =
          { focused := [el], clicked := if b then [el] else [],
            prevented := true, indexUpdate := none }) ∨
      ((key = "ArrowLeft" ∨ key = "Tab") ∧ 0 < i ∧
        ∃ el, eff =
          { focused := [el], clicked := [], prevented := true,
            indexUpdate := some false }) ∨
      ((key = "ArrowRight" ∨ key = "Tab") ∧ i < (cs.length : Int) - 1 ∧
        ∃ el, eff =
          { focused := [el], clicked := [], prevented := true,
            indexUpdate := some true }) := by
  simp only [handleEvents] at h
  split at h
  · exact Or.inl (by injection h; simp [*])
  · split at h
    · exact Or.inl (by injection h; simp [*])
    · split at h
      · exact absurd h (by simp)
      · split at h
        · rw [Option.some_inj] at h
          subst h
          rcases handleSwitchContainer_split key sh cs i _ opts.selectedClassName
            with hs | hs | hs
          · exact Or.inl hs
          · exact Or.inr (Or.inr (Or.inl hs))
          · exact Or.inr (Or.inr (Or.inr hs))
        · rw [Option.some_inj] at h
          subst h
          by_cases hd : key = "ArrowDown"
          · rcases focusElement_split (listGet? _ (jsFindIndex
                (fun e => act == some e) _ + 1)) i opts.autoSelect with hf | ⟨el, b, hf⟩
            · exact Or.inl (by simpa [handleUpDown, hd] using hf)
            · exact Or.inr (Or.inl ⟨Or.inl hd, el, b,
                by simpa [handleUpDown, hd] using hf⟩)
          · by_cases hu : key = "ArrowUp"
            · rcases focusElement_split (listGet? _ (jsFindIndex
                  (fun e => act == some e) _ - 1)) i opts.autoSelect with hf | ⟨el, b, hf⟩
              · exact Or.inl (by simpa [handleUpDown, hd, hu] using hf)
              · exact Or.inr (Or.inl ⟨Or.inr hu, el, b,
                  by simpa [handleUpDown, hd, hu] using hf⟩)
            · exact Or.inl ((handleUpDown_other_key key act _ i _ hd hu) ▸ rfl)

/-! ### Claim theorems -/

/-- C1 counterexample: the claim says that when the focused element is not in
the container's element sequence, BOTH Up and Down are no-ops. But JS
`findIndex` returns `-1` there, and `elements[-1 + 1]` is `elements[0]`: an
ArrowDown event focuses the FIRST element of the sequence and suppresses the
event's default handling, even though the active element is not a member of
the sequence. -/
theorem C1_counterexample :
    (Elem.mk 9 "") ∉ [Elem.mk 0 "", Elem.mk 1 ""] ∧
    handleUpDown "ArrowDown" (some (Elem.mk 9 "")) [Elem.mk 0 "", Elem.mk 1 ""] 0 none =
      { focused := [Elem.mk 0 ""], clicked := [], prevented := true,
        indexUpdate := none } := by
  decide

/-- C1 (amended): if the host's focused element is not present (by identity)
in the container's element sequence, the Up key is a no-op, while the Down key
behaves as a move to the sequence's FIRST element (`elements[-1 + 1]`): it is
handed to the Focus Actuator, so on a non-empty sequence the first element
receives focus (with default-handling suppression and the usual activation
policy), and only on an empty sequence is Down also a no-op. -/
theorem C1_amendedAbsentActive (act : Option Elem) (elements : List Elem)
    (i : Int) (auto : Option AutoSelect)
    (h : ∀ a ∈ elements, act ≠ some a) :
    handleUpDown "ArrowUp" act elements i auto = {} ∧
    handleUpDown "ArrowDown" act elements i auto =
      focusElement elements.head? i auto := by
  have hfi : findIdxAux (fun e => act == some e) elements = none :=
    findIdxAux_eq_none _ _ (fun a ha => by
      rw [beq_eq_false_iff_ne]
      exact h a ha)
  have hji : jsFindIndex (fun e => act == some e) elements = -1 := by
    simp [jsFindIndex, hfi]
  constructor
  · simp [handleUpDown, hji, listGet?_neg elements (-2) (by norm_num), focusElement]
  · simp [handleUpDown, hji, listGet?_zero]

/-- Witness for C1's amended theorem at a concrete input. -/
theorem C1_amendedAbsentActive_witness :
    handleUpDown "ArrowUp" (some (Elem.mk 9 "")) [Elem.mk 0 "", Elem.mk 1 ""] 0 none = {} ∧
    handleUpDown "ArrowDown" (some (Elem.mk 9 "")) [Elem.mk 0 "", Elem.mk 1 ""] 0 none =
      focusElement (some (Elem.mk 0 "")) 0 none :=
  C1_amendedAbsentActive (some (Elem.mk 9 "")) [Elem.mk 0 "", Elem.mk 1 ""] 0 none
    (by decide)

/-- C3: the Focus Actuator is a no-op on an absent element; on a present
element it focuses it, suppresses default handling unconditionally, and clicks
exactly when the AutoSelect policy is the boolean `true` or a per-index map
whose entry at the active container index is `true` (in particular, with
`autoSelect {1: true}`, a move at index 1 activates and moves at indices 0 and
2 do not). -/
theorem C3_focusActuator (el : Elem) (i : Int) (auto : Option AutoSelect) :
    focusElement none i auto = {} ∧
    (focusElement (some el) i auto).focused = [el] ∧
    (focusElement (some el) i auto).prevented = true ∧
    ((focusElement (some el) i auto).clicked = [el] ↔
      (auto = some (AutoSelect.bool true) ∨
        ∃ m, auto = some (AutoSelect.map m) ∧ (m.lookup i).getD false = true)) ∧
    (focusElement (some el) 1 (some (AutoSelect.map [(1, true)]))).clicked = [el] ∧
    (focusElement (some el) 0 (some (AutoSelect.map [(1, true)]))).clicked = [] ∧
    (focusElement (some el) 2 (some (AutoSelect.map [(1, true)]))).clicked = [] := by
  refine ⟨rfl, ?_, ?_, ?_, ?_, ?_, ?_⟩
  · cases auto with
    | none => rfl
    | some a => cases a <;> rfl
  · cases auto with
    | none => rfl
    | some a => cases a <;> rfl
  · cases auto with
    | none => simp [focusElement]
    | some a =>
      cases a with
      | bool b => cases b <;> simp [focusElement]
      | map m =>
        by_cases hm : (m.lookup i).getD false = true
        · simp [focusElement, hm]
        · simp only [Bool.not_eq_true] at hm
          simp [focusElement, hm]
  · simp [focusElement, List.lookup]
  · simp [focusElement, List.lookup]
  · simp [focusElement, List.lookup]

/-- C9: the marker test of `checkForPreviouslyFocusedElement` is substring
containment on the whole class string (`className.includes`), not exact
class-token membership: with the default marker `'selected'`, an element of
class `'unselected'` — which does not carry the `selected` class token but
whose class string contains `'selected'` as a substring — is returned ahead of
the sequence's first element. -/
theorem C9_markerIsSubstringTest :
    checkForPreviouslyFocusedElement [Elem.mk 0 "item", Elem.mk 1 "unselected"] none =
      some (Elem.mk 1 "unselected") ∧
    specHasMarker (Elem.mk 1 "unselected") SELECTED_CLASSNAME = false ∧
    strIncludes "unselected" SELECTED_CLASSNAME = true := by
  decide

/-- C4 counterexample: the claim says Selection Memory returns the first
element BEARING the marker. With marker `'selected'`, the sequence
`[class 'unselected', class 'selected']` has exactly one element bearing the
marker (the second), yet the code returns the first element, whose class
string merely contains `'selected'` as a substring. -/
theorem C4_counterexample :
    checkForPreviouslyFocusedElement
        [Elem.mk 0 "unselected", Elem.mk 1 "selected"] (some "selected") =
      some (Elem.mk 0 "unselected") ∧
    specHasMarker (Elem.mk 0 "unselected") "selected" = false ∧
    specHasMarker (Elem.mk 1 "selected") "selected" = true := by
  decide

theorem checkFor_cons_some (x : Elem) (xs : List Elem) (scn : Option String) :
    ∃ r, checkForPreviouslyFocusedElement (x :: xs) scn = some r := by
  unfold checkForPreviouslyFocusedElement
  split
  · exact ⟨_, rfl⟩
  · exact ⟨x, rfl⟩

theorem find?_first_match {α : Type} (p : α → Bool) (pre post : List α) (e : α)
    (hp : p e = true) (hpre : ∀ x ∈ pre, p x = false) :
    (pre ++ e :: post).find? p = some e := by
  induction pre with
  | nil => simp [hp]
  | cons a l ih =>
    simp [hpre a (List.mem_cons_self a l),
      ih (fun x hx => hpre x (List.mem_cons_of_mem _ hx))]

/-- C4 (amended): Selection Memory returns the FIRST element whose whole class
string CONTAINS the marker name as a substring (stated positionally: whenever
the sequence decomposes as `pre ++ e :: post` with `e`'s class string
containing the marker and no element of `pre` containing it, exactly `e` is
returned); if no element's class string contains it, the first element of the
sequence; and nothing when the sequence is empty. Accordingly, an
inter-container switch focuses exactly the element so chosen from the
(non-empty) queried sequence. -/
theorem C4_amendedSelectionMemory (elements : List Elem) (scn : Option String)
    (c : Container) (fwd : Bool) (sel : String) :
    checkForPreviouslyFocusedElement [] scn = none ∧
    ((∀ e ∈ elements,
        strIncludes e.className (scn.getD SELECTED_CLASSNAME) = false) →
      checkForPreviouslyFocusedElement elements scn = elements.head?) ∧
    (∀ pre post e, elements = pre ++ e :: post →
      strIncludes e.className (scn.getD SELECTED_CLASSNAME) = true →
      (∀ x ∈ pre, strIncludes x.className (scn.getD SELECTED_CLASSNAME) = false) →
      checkForPreviouslyFocusedElement elements scn = some e) ∧
    (getFocusableElements c sel ≠ [] →
      (moveToContainer (some c) fwd sel scn).focused =
        (checkForPreviouslyFocusedElement (getFocusableElements c sel) scn).toList) := by
  refine ⟨rfl, ?_, ?_, ?_⟩
  · intro hnone
    have : elements.find?
        (fun e => strIncludes e.className (scn.getD SELECTED_CLASSNAME)) = none := by
      rw [List.find?_eq_none]
      intro x hx
      simp [hnone x hx]
    simp [checkForPreviouslyFocusedElement, this]
  · intro pre post e hdec hmark hpre
    subst hdec
    have hfind : (pre ++ e :: post).find?
        (fun x => strIncludes x.className (scn.getD SELECTED_CLASSNAME)) = some e :=
      find?_first_match _ pre post e hmark hpre
    simp [checkForPreviouslyFocusedElement, hfind]
  · intro hne
    rcases hq : getFocusableElements c sel with _ | ⟨x, xs⟩
    · exact absurd hq hne
    · rcases checkFor_cons_some x xs scn with ⟨r, hr⟩
      have hq2 : c.query sel = x :: xs := hq
      simp [moveToContainer, getFocusableElements, hq2, hr]

/-- Witness for C4's amended theorem at concrete inputs: of two
substring-marked elements the FIRST one (not the later one) is returned even
though it is not the sequence's head, and a markerless sequence yields its
head. -/
theorem C4_amended_witness :
    checkForPreviouslyFocusedElement
        [Elem.mk 0 "a", Elem.mk 1 "x selected", Elem.mk 2 "selected"] none =
      some (Elem.mk 1 "x selected") ∧
    checkForPreviouslyFocusedElement [Elem.mk 0 "a", Elem.mk 1 "b"] none =
      [Elem.mk 0 "a", Elem.mk 1 "b"].head? :=
  ⟨(C4_amendedSelectionMemory
      [Elem.mk 0 "a", Elem.mk 1 "x selected", Elem.mk 2 "selected"] none
      (Container.mk (fun _ => [])) true "x").2.2.1
      [Elem.mk 0 "a"] [Elem.mk 2 "selected"] (Elem.mk 1 "x selected")
      rfl (by decide) (by decide),
   (C4_amendedSelectionMemory [Elem.mk 0 "a", Elem.mk 1 "b"] none
      (Container.mk (fun _ => [])) true "x").2.1 (by decide)⟩

/-- C5: on an inter-container switch, an absent candidate container is a
no-op; otherwise the candidate is queried with the resolved selector
expression, and when that yields no elements it is re-queried with the
universal all-known-kinds expression `parseSelectors(allSelectors)`; when that
still yields no elements the switch is a complete no-op (no focus move, no
index update, no default-handling suppression); and whenever the first query
is empty, the focus outcome is determined entirely by the fallback query. -/
theorem C5_candidateFallback (c : Container) (fwd : Bool) (sel : String)
    (scn : Option String) :
    moveToContainer none fwd sel scn = {} ∧
    (getFocusableElements c sel = [] →
      getFocusableElements c (parseSelectors (SelectorsSpec.many allSelectors)) = [] →
      moveToContainer (some c) fwd sel scn = {}) ∧
    (getFocusableElements c sel = [] →
      (moveToContainer (some c) fwd sel scn).focused =
        (checkForPreviouslyFocusedElement
          (getFocusableElements c (parseSelectors (SelectorsSpec.many allSelectors)))
          scn).toList) := by
  refine ⟨rfl, ?_, ?_⟩
  · intro h1 h2
    have h1q : c.query sel = [] := h1
    have h2q : c.query (parseSelectors (SelectorsSpec.many allSelectors)) = [] := h2
    simp [moveToContainer, getFocusableElements, h1q, h2q]
  · intro h1
    have h1q : c.query sel = [] := h1
    rcases hfb : getFocusableElements c (parseSelectors (SelectorsSpec.many allSelectors))
      with _ | ⟨x, xs⟩
    · have hfbq : c.query (parseSelectors (SelectorsSpec.many allSelectors)) = [] := hfb
      simp [moveToContainer, getFocusableElements, h1q, hfbq,
        checkForPreviouslyFocusedElement]
    · have hfbq : c.query (parseSelectors (SelectorsSpec.many allSelectors)) = x :: xs := hfb
      rcases checkFor_cons_some x xs scn with ⟨r, hr⟩
      simp [moveToContainer, getFocusableElements, h1q, hfbq, hr]

/-- Witness for C5 at concrete inputs: a container that is empty under every
query, and one that is empty under the resolved expression `"x"` but non-empty
under the universal fallback expression. -/
theorem C5_witness :
    moveToContainer (some (Container.mk (fun _ => []))) true "x" none = {} ∧
    (moveToContainer
        (some (Container.mk (fun s => if s == "x" then [] else [Elem.mk 3 ""])))
        true "x" none).focused =
      (checkForPreviouslyFocusedElement [Elem.mk 3 ""] none).toList :=
  ⟨(C5_candidateFallback (Container.mk (fun _ => [])) true "x" none).2.1 rfl rfl,
   (C5_candidateFallback
      (Container.mk (fun s => if s == "x" then [] else [Elem.mk 3 ""]))
      true "x" none).2.2 (by decide)⟩

/-- C7: intra-container navigation clamps at the boundaries without wrapping:
with the first element focused, ArrowUp is a no-op (`elements[-1]` is absent),
and with the last element focused (written `front ++ [en]`, the focused
element occurring only at the last position), ArrowDown is a no-op
(`elements[length]` is absent). -/
theorem C7_boundaryClamp (elements front : List Elem) (e0 en : Elem) (i : Int)
    (auto : Option AutoSelect)
    (hd : elements.head? = some e0)
    (hl : elements = front ++ [en]) (hni : en ∉ front) :
    handleUpDown "ArrowUp" (some e0) elements i auto = {} ∧
    handleUpDown "ArrowDown" (some en) elements i auto = {} := by
  constructor
  · have hfi : findIdxAux (fun e => e0 == e) elements = some 0 := by
      rcases elements with _ | ⟨a, t⟩
      · simp at hd
      · have ha : a = e0 := by simpa using hd
        subst ha
        simp [findIdxAux]
    simp [handleUpDown, jsFindIndex, hfi,
      listGet?_neg elements (-1) (by norm_num), focusElement]
  · have hfi : findIdxAux (fun e => en == e) elements = some front.length := by
      rw [hl]
      exact findIdxAux_append_last _ front en (by simp)
        (fun a ha => by
          have hne : en ≠ a := fun h => hni (h ▸ ha)
          simp [hne])
    have hlen : (front.length : Int) + 1 = (elements.length : Int) := by
      rw [hl]
      simp
    simp [handleUpDown, jsFindIndex, hfi, hlen, listGet?_length, focusElement]

/-- Witness for C7 at a concrete two-element container. -/
theorem C7_witness :
    handleUpDown "ArrowUp" (some (Elem.mk 0 "")) [Elem.mk 0 "", Elem.mk 1 ""] 0 none = {} ∧
    handleUpDown "ArrowDown" (some (Elem.mk 1 "")) [Elem.mk 0 "", Elem.mk 1 ""] 0 none = {} :=
  C7_boundaryClamp [Elem.mk 0 "", Elem.mk 1 ""] [Elem.mk 0 ""] (Elem.mk 0 "")
    (Elem.mk 1 "") 0 none rfl rfl (by decide)

/-- C2: for every handled event, if the container sequence satisfies
`0 ≤ containerIndex < length` beforehand, the resulting index (the prior index
with the recorded updater applied) still satisfies the invariant; the index is
mutated only via an `indexUpdate`, which happens only with a focus move into
the candidate (so only when the candidate existed and yielded at least one
focusable element) and is exactly `+1` (next) or `-1` (previous); at index 0
an ArrowLeft (previous) event leaves the index 0, and at the last index an
ArrowRight (next) event leaves it at the last value. -/
theorem C2_containerIndexInvariant (key : String) (sh : Bool) (act : Option Elem)
    (cs : List Container) (i : Int) (opts : Options) (eff : Effects)
    (h0 : 0 ≤ i) (h1 : i < (cs.length : Int))
    (h : handleEvents key sh act cs i opts = some eff) :
    (0 ≤ applyIndex i eff ∧ applyIndex i eff < (cs.length : Int)) ∧
    (eff.indexUpdate = none → applyIndex i eff = i) ∧
    (eff.indexUpdate = some true →
      applyIndex i eff = i + 1 ∧ i < (cs.length : Int) - 1 ∧ eff.focused ≠ []) ∧
    (eff.indexUpdate = some false →
      applyIndex i eff = i - 1 ∧ 0 < i ∧ eff.focused ≠ []) ∧
    (i = 0 → key = "ArrowLeft" → applyIndex i eff = 0) ∧
    (i = (cs.length : Int) - 1 → key = "ArrowRight" → applyIndex i eff = i) := by
  rcases handleEvents_split key sh act cs i opts eff h with
    he | ⟨hk, el, b, he⟩ | ⟨hk, hi, el, he⟩ | ⟨hk, hi, el, he⟩
  · subst he
    exact ⟨⟨h0, h1⟩, fun _ => rfl, fun hx => absurd hx (by simp),
      fun hx => absurd hx (by simp), fun h5 _ => by subst h5; rfl, fun _ _ => rfl⟩
  · subst he
    exact ⟨⟨h0, h1⟩, fun _ => rfl, fun hx => absurd hx (by simp),
      fun hx => absurd hx (by simp), fun h5 _ => by subst h5; rfl, fun _ _ => rfl⟩
  · subst he
    have happ : applyIndex i
        (⟨[el], [], true, some false⟩ : Effects) = i - 1 := rfl
    refine ⟨⟨by rw [happ]; omega, by rw [happ]; omega⟩,
      fun hx => absurd hx (by simp), fun hx => absurd hx (by simp),
      fun _ => ⟨happ, hi, by simp⟩, fun h5 _ => absurd h5 (by omega),
      fun _ h6 => ?_⟩
    rcases hk with hk | hk <;> rw [h6] at hk <;> exact absurd hk (by decide)
  · subst he
    have happ : applyIndex i
        (⟨[el], [], true, some true⟩ : Effects) = i + 1 := rfl
    refine ⟨⟨by rw [happ]; omega, by rw [happ]; omega⟩,
      fun hx => absurd hx (by simp), fun _ => ⟨happ, hi, by simp⟩,
      fun hx => absurd hx (by simp), fun _ h6 => ?_,
      fun h5 _ => absurd h5 (by omega)⟩
    rcases hk with hk | hk <;> rw [h6] at hk <;> exact absurd hk (by decide)

/-- Witness for C2: a successful ArrowRight switch from index 0 of two
containers keeps the index inside the invariant. -/
theorem C2_witness :
    (0 : Int) ≤ applyIndex 0 (Effects.mk [Elem.mk 1 ""] [] true (some true)) ∧
    applyIndex 0 (Effects.mk [Elem.mk 1 ""] [] true (some true)) <
      (([Container.mk (fun _ => [Elem.mk 0 ""]),
         Container.mk (fun _ => [Elem.mk 1 ""])] : List Container).length : Int) :=
  (C2_containerIndexInvariant "ArrowRight" false none
    [Container.mk (fun _ => [Elem.mk 0 ""]), Container.mk (fun _ => [Elem.mk 1 ""])]
    0 {} (Effects.mk [Elem.mk 1 ""] [] true (some true))
    (by decide) (by decide) (by decide)).1

/-- C6: an event whose key is ArrowLeft, ArrowRight or Tab — in particular
every inter-container switch, successful or not, under every AutoSelect
policy — never triggers activation: no element is clicked. -/
theorem C6_switchNeverActivates (key : String) (sh : Bool) (act : Option Elem)
    (cs : List Container) (i : Int) (opts : Options) (eff : Effects)
    (hk : key = "ArrowLeft" ∨ key = "ArrowRight" ∨ key = "Tab")
    (h : handleEvents key sh act cs i opts = some eff) :
    eff.clicked = [] := by
  rcases handleEvents_split key sh act cs i opts eff h with
    he | ⟨hk2, el, b, he⟩ | ⟨_, _, el, he⟩ | ⟨_, _, el, he⟩
  · subst he; rfl
  · rcases hk with h1 | h1 | h1 <;> rcases hk2 with h2 | h2 <;>
      (subst h1; exact absurd h2 (by decide))
  · subst he; rfl
  · subst he; rfl

/-- Witness for C6: the successful switch of `C2_witness` clicks nothing. -/
theorem C6_witness :
    (Effects.mk [Elem.mk 1 ""] [] true (some true)).clicked = [] :=
  C6_switchNeverActivates "ArrowRight" false none
    [Container.mk (fun _ => [Elem.mk 0 ""]), Container.mk (fun _ => [Elem.mk 1 ""])]
    0 {} (Effects.mk [Elem.mk 1 ""] [] true (some true))
    (Or.inr (Or.inl rfl)) (by decide)

/-- C10: over every run of the dispatch core, the event's default handling is
suppressed iff a focus move actually occurred; and whenever no suppression
happened (every degenerate path: empty container sequence, unrecognized key,
absent candidate, no focusable elements even after the universal fallback,
absent neighbor), the whole effect record is empty — no focus, no click, no
index update. -/
theorem C10_preventDefaultIffFocus (key : String) (sh : Bool) (act : Option Elem)
    (cs : List Container) (i : Int) (opts : Options) (eff : Effects)
    (h : handleEvents key sh act cs i opts = some eff) :
    (eff.prevented = true ↔ eff.focused ≠ []) ∧
    (eff.prevented = false → eff = {}) := by
  rcases handleEvents_split key sh act cs i opts eff h with
    he | ⟨_, el, b, he⟩ | ⟨_, _, el, he⟩ | ⟨_, _, el, he⟩ <;> subst he <;>
    exact ⟨by simp, by simp⟩

/-- Witness for C10: an intra-container ArrowDown move that focused an element
also suppressed default handling. -/
theorem C10_witness :
    ((Effects.mk [Elem.mk 1 ""] [] true none).prevented = true ↔
      (Effects.mk [Elem.mk 1 ""] [] true none).focused ≠ []) ∧
    ((Effects.mk [Elem.mk 1 ""] [] true none).prevented = false →
      Effects.mk [Elem.mk 1 ""] [] true none = {}) :=
  C10_preventDefaultIffFocus "ArrowDown" false (some (Elem.mk 0 ""))
    [Container.mk (fun _ => [Elem.mk 0 "", Elem.mk 1 ""])] 0 {}
    (Effects.mk [Elem.mk 1 ""] [] true none) (by decide)

/-- C8: with exactly one container configured, ArrowLeft and ArrowRight events
are silent no-ops: they pass the recognized-key filter, never reach the
inter-container path (guarded by `containers.length > 1`), do not navigate
within the single container, and produce no focus change, no index update and
no default-handling suppression. -/
theorem C8_singleContainerLeftRight (key : String) (sh : Bool) (act : Option Elem)
    (c : Container) (opts : Options)
    (hk : key = "ArrowLeft" ∨ key = "ArrowRight") :
    handleEvents key sh act [c] 0 opts = some {} := by
  rcases hk with hk | hk <;> subst hk <;>
    simp [handleEvents, listGet?, handleUpDown, focusElement]

/-- Witness for C8 at a concrete single container. -/
theorem C8_witness :
    handleEvents "ArrowLeft" false none
      [Container.mk (fun _ => [Elem.mk 0 ""])] 0 {} = some {} :=
  C8_singleContainerLeftRight "ArrowLeft" false none
    (Container.mk (fun _ => [Elem.mk 0 ""])) {} (Or.inl rfl)
